import Mathlib

/-!
Verification of the benchmark-result analysis subsystem of this repository.

The embedded code:
* `benchmark/check_regression.py` and `src/libvroom/benchmark/check_regression.py`
  (functions `load_benchmark`, `compare_benchmarks`, `main`).  The libvroom
  variant is the general one (it takes a `time_unit` and a `threshold`
  parameter); the older variant is the instance `time_unit = "ns"`,
  `threshold = 0.10`.
* `scripts/analyze_hypotheses.py` (functions `BenchmarkResult.from_json`,
  `load_results`, `group_by_prefix`, `analyze_h6`, and the emptiness guard of
  `main`).

Python `dict`s keyed by benchmark name are embedded as association lists
(`List (String × ℚ)`), iterated in insertion order, exactly as `dict.items()`
does.  Python floats are embedded as `ℚ`, except where the code can produce
`float('inf')`, where the type `PyFloat` (a rational or infinity) is used.
-/

namespace CheckRegression

/-- A normalized record set: benchmark name -> averaged time, as produced by
`load_benchmark`.  Stands for the Python dict (items in insertion order). -/
abbrev RecordSet := List (String × ℚ)

/-- `REGRESSION_THRESHOLD = 0.15` of the libvroom script. -/
def REGRESSION_THRESHOLD : ℚ := 15 / 100

/-- `EXPECTED_BENCHMARK_COUNT = 7` of the libvroom script. -/
def EXPECTED_BENCHMARK_COUNT : Nat := 7

/-- The `MIN_TIME_THRESHOLD` table of `compare_benchmarks`: 1ms expressed in
the record's time unit, defaulting to 1 for an unknown unit. -/
def MIN_TIME_THRESHOLD (time_unit : String) : ℚ :=
  if time_unit = "ns" then 1000000
  else if time_unit = "us" then 1000
  else if time_unit = "ms" then 1
  else if time_unit = "s" then 1 / 1000
  else 1

/-- Result of `compare_benchmarks`: the four lists the Python function
returns.  Entries in `unchanged` are `(name, base_time, curr_time, ratio)`
for in-threshold records and `(name, curr_time, None, None)` for records
absent from the baseline, exactly as appended by the source. -/
structure CompareResult where
  regressions : List (String × ℚ × ℚ × ℚ)
  improvements : List (String × ℚ × ℚ × ℚ)
  unchanged : List (String × ℚ × Option ℚ × Option ℚ)
  skipped : List (String × ℚ × ℚ)
deriving DecidableEq

/-- Spec-level classification enum (`Comparison.classification` of the spec's
data model).  In the code, `new` is represented by an `unchanged`-list entry
whose baseline and ratio fields are `None` (rendered by `main` as
"(new benchmark)"). -/
inductive Classification where
  | regression
  | improvement
  | unchanged
  | skipped
  | new
deriving DecidableEq

/-- The per-record branch structure of the `compare_benchmarks` loop body:
which bucket the record `(name, curr_time)` is sent to. -/
def classify (baseline : RecordSet) (time_unit : String) (threshold : ℚ)
    (name : String) (curr_time : ℚ) : Classification :=
  match List.lookup name baseline with
  | none => Classification.new
  | some base_time =>
    if base_time ≤ 0 ∨ base_time < MIN_TIME_THRESHOLD time_unit then
      Classification.skipped
    else
      let ratio := (curr_time - base_time) / base_time
      if ratio > threshold then Classification.regression
      else if ratio < -threshold then Classification.improvement
      else Classification.unchanged

/-- The loop of `compare_benchmarks`, structurally recursive over the
`current.items()` sequence; each record is appended to exactly one of the
four lists, in iteration order. -/
def compareGo (baseline : RecordSet) (time_unit : String) (threshold : ℚ) :
    List (String × ℚ) → CompareResult
  | [] => ⟨[], [], [], []⟩
  | (name, curr_time) :: rest =>
    let r := compareGo baseline time_unit threshold rest
    match List.lookup name baseline with
    | none =>
      { r with unchanged := (name, curr_time, none, none) :: r.unchanged }
    | some base_time =>
      if base_time ≤ 0 ∨ base_time < MIN_TIME_THRESHOLD time_unit then
        { r with skipped := (name, base_time, curr_time) :: r.skipped }
      else
        let ratio := (curr_time - base_time) / base_time
        if ratio > threshold then
          { r with regressions := (name, base_time, curr_time, ratio) :: r.regressions }
        else if ratio < -threshold then
          { r with improvements := (name, base_time, curr_time, ratio) :: r.improvements }
        else
          { r with unchanged := (name, base_time, some curr_time, some ratio) :: r.unchanged }

/-- `compare_benchmarks(baseline, current, time_unit, threshold)` of the
libvroom script.  The older script's comparison is the instance
`time_unit = "ns"`, `threshold = 0.10`. -/
def compare_benchmarks (baseline current : RecordSet)
    (time_unit : String) (threshold : ℚ) : CompareResult :=
  compareGo baseline time_unit threshold current

/-- Per-record contribution to the `regressions` list. -/
def regEntry (baseline : RecordSet) (time_unit : String) (threshold : ℚ)
    (p : String × ℚ) : Option (String × ℚ × ℚ × ℚ) :=
  match List.lookup p.1 baseline with
  | none => none
  | some base_time =>
    if base_time ≤ 0 ∨ base_time < MIN_TIME_THRESHOLD time_unit then none
    else
      let ratio := (p.2 - base_time) / base_time
      if ratio > threshold then some (p.1, base_time, p.2, ratio) else none

/-- Per-record contribution to the `improvements` list. -/
def impEntry (baseline : RecordSet) (time_unit : String) (threshold : ℚ)
    (p : String × ℚ) : Option (String × ℚ × ℚ × ℚ) :=
  match List.lookup p.1 baseline with
  | none => none
  | some base_time =>
    if base_time ≤ 0 ∨ base_time < MIN_TIME_THRESHOLD time_unit then none
    else
      let ratio := (p.2 - base_time) / base_time
      if ratio > threshold then none
      else if ratio < -threshold then some (p.1, base_time, p.2, ratio) else none

/-- Per-record contribution to the `unchanged` list. -/
def unchEntry (baseline : RecordSet) (time_unit : String) (threshold : ℚ)
    (p : String × ℚ) : Option (String × ℚ × Option ℚ × Option ℚ) :=
  match List.lookup p.1 baseline with
  | none => some (p.1, p.2, none, none)
  | some base_time =>
    if base_time ≤ 0 ∨ base_time < MIN_TIME_THRESHOLD time_unit then none
    else
      let ratio := (p.2 - base_time) / base_time
      if ratio > threshold then none
      else if ratio < -threshold then none
      else some (p.1, base_time, some p.2, some ratio)

/-- Per-record contribution to the `skipped` list. -/
def skipEntry (baseline : RecordSet) (time_unit : String)
    (p : String × ℚ) : Option (String × ℚ × ℚ) :=
  match List.lookup p.1 baseline with
  | none => none
  | some base_time =>
    if base_time ≤ 0 ∨ base_time < MIN_TIME_THRESHOLD time_unit then
      some (p.1, base_time, p.2)
    else none

/-- The exit code of `main` once both files are loaded: `1` when the current
set fails the minimum-count validation, `1` in relative mode without a
baseline, `0` on the establish-baseline path, and otherwise `1` exactly when
`compare_benchmarks` reported at least one regression. -/
def mainExit (relative_mode : Bool) (baseline : Option RecordSet)
    (current : RecordSet) (time_unit : String) (threshold : ℚ) : Nat :=
  if current.length < EXPECTED_BENCHMARK_COUNT then 1
  else
    match baseline with
    | none => if relative_mode then 1 else 0
    | some b =>
      if (compare_benchmarks b current time_unit threshold).regressions = [] then 0
      else 1

/-- One entry of the `benchmarks` array of the input JSON document, with the
fields `load_benchmark` reads.  `Option` marks fields that may be absent
(`dict.get`); `error_occurred` is the JSON boolean (absent ≡ false). -/
structure BenchEntry where
  name : Option String
  real_time : Option ℚ
  time_unit : Option String
  aggregate_name : Option String
  error_occurred : Bool
  error_message : Option String
deriving DecidableEq

/-- Python truthiness of an optional string field: absent and `""` are falsy. -/
def truthyStr : Option String → Bool
  | none => false
  | some s => s != ""

/-- The error test of `load_benchmark`:
`bench.get('error_occurred') or bench.get('error_message')`. -/
def entryErrored (e : BenchEntry) : Bool :=
  e.error_occurred || truthyStr e.error_message

/-- The `errors` list collected by `load_benchmark`: the name (default
"unknown") and message (default "Unknown error") of every entry whose error
flag or message is set. -/
def benchErrors (benchmarks : List BenchEntry) : List (String × String) :=
  benchmarks.filterMap fun e =>
    if entryErrored e then
      some (e.name.getD "unknown", e.error_message.getD "Unknown error")
    else none

/-- `results[name].append(t)` on the dict-of-lists: a Python dict keeps the
position of an existing key and appends new keys at the end. -/
def addTime : List (String × List ℚ) → String → ℚ → List (String × List ℚ)
  | [], name, t => [(name, [t])]
  | (m, ts) :: rest, name, t =>
    if m = name then (m, ts ++ [t]) :: rest
    else (m, ts) :: addTime rest name t

/-- One iteration of the extraction loop of `load_benchmark`: skip aggregate
entries, skip errored entries, and for entries with a `real_time` record the
time and update the captured `time_unit`. -/
def extractStep (st : List (String × List ℚ) × String) (e : BenchEntry) :
    List (String × List ℚ) × String :=
  if truthyStr e.aggregate_name then st
  else if entryErrored e then st
  else
    match e.real_time with
    | none => st
    | some t =>
      (addTime st.1 (e.name.getD "") t,
       match e.time_unit with
       | none => st.2
       | some u => u)

/-- The extraction loop of `load_benchmark` over the `benchmarks` array,
starting from an empty dict and the default unit `"ns"`. -/
def extractResults (benchmarks : List BenchEntry) :
    List (String × List ℚ) × String :=
  benchmarks.foldl extractStep ([], "ns")

/-- `load_benchmark` after the JSON has parsed: collect the harness-reported
errors, fail with them when `check_errors` is set, otherwise return the
dict of per-name averages together with the captured time unit. -/
def load_benchmark (benchmarks : List BenchEntry) (check_errors : Bool) :
    Except (List (String × String)) (List (String × ℚ) × String) :=
  let errors := benchErrors benchmarks
  if errors ≠ [] ∧ check_errors then Except.error errors
  else
    Except.ok
      ((extractResults benchmarks).1.map (fun p => (p.1, p.2.sum / (p.2.length : ℚ))),
       (extractResults benchmarks).2)

/-- An entry that contributes no usable record: an aggregate row, an errored
row, or a row without the primary metric. -/
def entryUnusable (e : BenchEntry) : Prop :=
  truthyStr e.aggregate_name = true ∨ entryErrored e = true ∨ e.real_time = none

instance : DecidablePred entryUnusable := fun e => by
  unfold entryUnusable
  infer_instance

/-- A concrete aggregate-only entry (a harness-supplied `mean` row). -/
def aggOnlyEntry : BenchEntry :=
  ⟨some "bench_mean", some 5, some "ms", some "mean", false, none⟩

/-- A concrete errored entry. -/
def erroredEntry : BenchEntry :=
  ⟨some "bench_bad", some 7, some "ms", none, true, some "timeout"⟩

/-- A concrete clean entry. -/
def cleanEntry : BenchEntry :=
  ⟨some "bench_ok", some 4, some "ms", none, false, none⟩

end CheckRegression

namespace AnalyzeHypotheses

/-- A Python float that can be `float('inf')`: all other values are exact
rationals.  `analyze_hypotheses.py` produces `inf` only as a ratio with a
non-positive denominator; `-inf` and `nan` never arise, so `add` and `max2`
treat any `inf` operand as absorbing, exactly like IEEE `inf` under these
operations. -/
inductive PyFloat where
  | fin : ℚ → PyFloat
  | inf : PyFloat
deriving DecidableEq

/-- Python `+` restricted to the values that occur (finite or `inf`). -/
def PyFloat.add : PyFloat → PyFloat → PyFloat
  | PyFloat.fin a, PyFloat.fin b => PyFloat.fin (a + b)
  | _, _ => PyFloat.inf

/-- Python `sum(list)` (the start value 0 is finite). -/
def PyFloat.sum (l : List PyFloat) : PyFloat :=
  l.foldl PyFloat.add (PyFloat.fin 0)

/-- Division by a list length, as in `sum(ratios) / len(ratios)`. -/
def PyFloat.divNat : PyFloat → Nat → PyFloat
  | PyFloat.fin a, n => PyFloat.fin (a / (n : ℚ))
  | PyFloat.inf, _ => PyFloat.inf

/-- `sum(ratios) / len(ratios)`. -/
def PyFloat.mean (l : List PyFloat) : PyFloat :=
  (PyFloat.sum l).divNat l.length

/-- Python binary `max` on the occurring values. -/
def PyFloat.max2 : PyFloat → PyFloat → PyFloat
  | PyFloat.fin a, PyFloat.fin b => PyFloat.fin (max a b)
  | _, _ => PyFloat.inf

/-- Python `max(list)` (only ever called on a non-empty list; the `[]` case
is an unreachable default). -/
def PyFloat.maxList : List PyFloat → PyFloat
  | [] => PyFloat.fin 0
  | h :: t => t.foldl PyFloat.max2 h

/-- Comparison `x > q` against a finite literal threshold (`inf` exceeds
every finite threshold). -/
def PyFloat.gtQ : PyFloat → ℚ → Bool
  | PyFloat.fin a, q => decide (q < a)
  | PyFloat.inf, _ => true

/-- `nc.real_time / wc.real_time if wc.real_time > 0 else float('inf')`. -/
def pyRatio (a b : ℚ) : PyFloat :=
  if b > 0 then PyFloat.fin (a / b) else PyFloat.inf

/-- A parsed benchmark entry (`BenchmarkResult` dataclass): missing numeric
fields were defaulted to 0 by `from_json`, and `counters` holds the
recognized counter keys. -/
structure BenchmarkResult where
  name : String
  real_time : ℚ
  cpu_time : ℚ
  iterations : ℤ
  counters : List (String × ℚ)
deriving DecidableEq

/-- A raw entry of the input document's `benchmarks` array as seen by
`load_results` / `BenchmarkResult.from_json`. -/
structure RawBench where
  name : Option String
  real_time : Option ℚ
  cpu_time : Option ℚ
  iterations : Option ℤ
  aggregate_name : Option String
  counters : List (String × ℚ)
deriving DecidableEq

/-- The fixed counter-key set of `BenchmarkResult.from_json`. -/
def counter_keys : List String :=
  ["Rows", "Cols", "Threads", "Accesses", "AccessesPerSec",
   "RowsPerSec", "Fields", "Size_MB", "TypeChanges",
   "SampleRows", "EscapeCount", "TotalFields",
   "EscapeRatio_Input", "ActualEscapeRatio", "IsFlat",
   "TotalCols", "ColsIterated", "FieldsAccessed", "Stage"]

/-- `BenchmarkResult.from_json`: defaults for missing fields, counters
restricted to the recognized keys. -/
def from_json (b : RawBench) : BenchmarkResult :=
  { name := b.name.getD ""
    real_time := b.real_time.getD 0
    cpu_time := b.cpu_time.getD 0
    iterations := b.iterations.getD 0
    counters := b.counters.filter (fun kv => counter_keys.contains kv.1) }

/-- `load_results` after the JSON has parsed: drop aggregate entries, parse
the rest. -/
def load_results (benches : List RawBench) : List BenchmarkResult :=
  (benches.filter (fun b => !CheckRegression.truthyStr b.aggregate_name)).map from_json

/-- The emptiness guard of `main`: exit code 1 when the loaded result list
is empty (`if not results: sys.exit(1)`), 0 otherwise (for the loading
stage). -/
def analyzeMainExit (benches : List RawBench) : Nat :=
  if load_results benches = [] then 1 else 0

/-- `name.startswith(pat)` on the underlying character lists. -/
def nameStarts (s pat : String) : Bool :=
  List.isPrefixOf pat.data s.data

/-- `group_by_prefix(results, pat)`: the records whose name starts with the
given pattern, in order. -/
def group_by_name_start (results : List BenchmarkResult) (pat : String) :
    List BenchmarkResult :=
  results.filter (fun r => nameStarts r.name pat)

/-- Python `x == counters.get(key)` where the right side may be `None`
(a number never equals `None`). -/
def pyEqOpt (q : ℚ) : Option ℚ → Bool
  | none => false
  | some r => q == r

/-- `counters.get(key, 0)`. -/
def getCounterD (r : BenchmarkResult) (k : String) (d : ℚ) : ℚ :=
  (List.lookup k r.counters).getD d

/-- The sequential match condition of `analyze_h6`: equal `Rows` and
`Threads` (left side defaulted to 0, right side may be absent). -/
def h6SeqKey (nc wc : BenchmarkResult) : Bool :=
  pyEqOpt (getCounterD nc "Rows" 0) (List.lookup "Rows" wc.counters) &&
  pyEqOpt (getCounterD nc "Threads" 0) (List.lookup "Threads" wc.counters)

/-- The inner `for wc ... if ... break` of the sequential loop: the first
matching record, if any. -/
def h6SeqMatch (wcs : List BenchmarkResult) (nc : BenchmarkResult) :
    Option BenchmarkResult :=
  wcs.find? (fun wc => h6SeqKey nc wc)

/-- The random-access match condition of `analyze_h6`: equal `Threads`
(right side may be absent) and equal `Accesses` (both sides defaulted
to 0). -/
def h6RandKey (nc wc : BenchmarkResult) : Bool :=
  pyEqOpt (getCounterD nc "Threads" 0) (List.lookup "Threads" wc.counters) &&
  (getCounterD nc "Accesses" 0 == getCounterD wc "Accesses" 0)

/-- The inner loop of the random-access matching. -/
def h6RandMatch (wcs : List BenchmarkResult) (nc : BenchmarkResult) :
    Option BenchmarkResult :=
  wcs.find? (fun wc => h6RandKey nc wc)

/-- The matched sequential pairs of `analyze_h6`, in loop order. -/
def h6SeqPairs (results : List BenchmarkResult) :
    List (BenchmarkResult × BenchmarkResult) :=
  (group_by_name_start results "BM_H6_FieldAccess_NoCompact").filterMap fun nc =>
    (h6SeqMatch (group_by_name_start results "BM_H6_FieldAccess_WithCompact") nc).map
      (fun wc => (nc, wc))

/-- The matched random-access pairs of `analyze_h6`, in loop order. -/
def h6RandPairs (results : List BenchmarkResult) :
    List (BenchmarkResult × BenchmarkResult) :=
  (group_by_name_start results "BM_H6_RandomAccess_NoCompact").filterMap fun nc =>
    (h6RandMatch (group_by_name_start results "BM_H6_RandomAccess_WithCompact") nc).map
      (fun wc => (nc, wc))

/-- `analysis['sequential_ratios']`. -/
def h6SeqRatios (results : List BenchmarkResult) : List PyFloat :=
  (h6SeqPairs results).map (fun pr => pyRatio pr.1.real_time pr.2.real_time)

/-- `analysis['random_ratios']`. -/
def h6RandRatios (results : List BenchmarkResult) : List PyFloat :=
  (h6RandPairs results).map (fun pr => pyRatio pr.1.real_time pr.2.real_time)

/-- `analysis['details']`, abstracted to the numeric payload of each detail
string: the two times and the ratio (sequential entries first, then the
random-access ones, as appended by the two loops). -/
def h6Details (results : List BenchmarkResult) : List (ℚ × ℚ × PyFloat) :=
  (h6SeqPairs results).map
      (fun pr => (pr.1.real_time, pr.2.real_time, pyRatio pr.1.real_time pr.2.real_time)) ++
  (h6RandPairs results).map
      (fun pr => (pr.1.real_time, pr.2.real_time, pyRatio pr.1.real_time pr.2.real_time))

/-- The result dict of `analyze_h6`; the three aggregate fields are `none`
when the final `if` did not run (a dict key never set). -/
structure H6Analysis where
  hypothesis : String
  description : String
  sequential_ratios : List PyFloat
  random_ratios : List PyFloat
  confirmed : Option Bool
  details : List (ℚ × ℚ × PyFloat)
  avg_sequential_ratio : Option PyFloat
  avg_random_ratio : Option PyFloat
  max_sequential_ratio : Option PyFloat
deriving DecidableEq

/-- `analyze_h6`: group, match, compute ratio lists and details, and when
both ratio lists are non-empty compute the aggregates and the compound
criterion `avg_seq > 1.15 and avg_rand > 1.5 or max_seq > 1.4`. -/
def analyze_h6 (results : List BenchmarkResult) : H6Analysis :=
  if h6SeqRatios results ≠ [] ∧ h6RandRatios results ≠ [] then
    { hypothesis := "H6"
      description := "compact() is required for O(1) field access"
      sequential_ratios := h6SeqRatios results
      random_ratios := h6RandRatios results
      confirmed := some
        ((PyFloat.gtQ (PyFloat.mean (h6SeqRatios results)) (115 / 100) &&
          PyFloat.gtQ (PyFloat.mean (h6RandRatios results)) (3 / 2)) ||
         PyFloat.gtQ (PyFloat.maxList (h6SeqRatios results)) (7 / 5))
      details := h6Details results
      avg_sequential_ratio := some (PyFloat.mean (h6SeqRatios results))
      avg_random_ratio := some (PyFloat.mean (h6RandRatios results))
      max_sequential_ratio := some (PyFloat.maxList (h6SeqRatios results)) }
  else
    { hypothesis := "H6"
      description := "compact() is required for O(1) field access"
      sequential_ratios := h6SeqRatios results
      random_ratios := h6RandRatios results
      confirmed := none
      details := h6Details results
      avg_sequential_ratio := none
      avg_random_ratio := none
      max_sequential_ratio := none }

/-- Modelled from the spec: the aggregate the spec mandates, a mean taken
after excluding infinite ratios.  Used only to exhibit that the code's
aggregates differ from it. -/
def meanExcludingInf (l : List PyFloat) : PyFloat :=
  PyFloat.mean (l.filter (fun x => x != PyFloat.inf))

/-- Concrete sample for C4: two sequential pairs (one with a zero
denominator) and one random pair. -/
def c4ncA : BenchmarkResult :=
  ⟨"BM_H6_FieldAccess_NoCompact/a", 4, 0, 0, [("Rows", 1), ("Threads", 1)]⟩

def c4wcA : BenchmarkResult :=
  ⟨"BM_H6_FieldAccess_WithCompact/a", 2, 0, 0, [("Rows", 1), ("Threads", 1)]⟩

def c4ncB : BenchmarkResult :=
  ⟨"BM_H6_FieldAccess_NoCompact/b", 5, 0, 0, [("Rows", 2), ("Threads", 1)]⟩

def c4wcB : BenchmarkResult :=
  ⟨"BM_H6_FieldAccess_WithCompact/b", 0, 0, 0, [("Rows", 2), ("Threads", 1)]⟩

def c4nrA : BenchmarkResult :=
  ⟨"BM_H6_RandomAccess_NoCompact/a", 3, 0, 0, [("Threads", 1), ("Accesses", 10)]⟩

def c4wrA : BenchmarkResult :=
  ⟨"BM_H6_RandomAccess_WithCompact/a", 2, 0, 0, [("Threads", 1), ("Accesses", 10)]⟩

def c4sample : List BenchmarkResult := [c4ncA, c4wcA, c4ncB, c4wcB, c4nrA, c4wrA]

/-- Concrete unmatched record for the C9 witness. -/
def c9lone : BenchmarkResult :=
  ⟨"BM_H6_FieldAccess_NoCompact/z", 9, 0, 0, [("Rows", 7), ("Threads", 2)]⟩

end AnalyzeHypotheses

namespace CheckRegression

theorem regressions_eq_filterMap (baseline : RecordSet) (time_unit : String)
    (threshold : ℚ) (current : RecordSet) :
    (compare_benchmarks baseline current time_unit threshold).regressions =
      current.filterMap (regEntry baseline time_unit threshold) := by
  induction current with
  | nil => rfl
  | cons p rest ih =>
    obtain ⟨name, curr⟩ := p
    simp only [compare_benchmarks, compareGo, List.filterMap_cons] at *
    unfold regEntry
    cases h : List.lookup name baseline with
    | none => simpa [h] using ih
    | some base_time =>
      simp only [h]
      split
      · simpa using ih
      · split
        · simpa using ih
        · split <;> simpa using ih

theorem improvements_eq_filterMap (baseline : RecordSet) (time_unit : String)
    (threshold : ℚ) (current : RecordSet) :
    (compare_benchmarks baseline current time_unit threshold).improvements =
      current.filterMap (impEntry baseline time_unit threshold) := by
  induction current with
  | nil => rfl
  | cons p rest ih =>
    obtain ⟨name, curr⟩ := p
    simp only [compare_benchmarks, compareGo, List.filterMap_cons] at *
    unfold impEntry
    cases h : List.lookup name baseline with
    | none => simpa [h] using ih
    | some base_time =>
      simp only [h]
      split
      · simpa using ih
      · split
        · simpa using ih
        · split <;> simpa using ih

theorem unchanged_eq_filterMap (baseline : RecordSet) (time_unit : String)
    (threshold : ℚ) (current : RecordSet) :
    (compare_benchmarks baseline current time_unit threshold).unchanged =
      current.filterMap (unchEntry baseline time_unit threshold) := by
  induction current with
  | nil => rfl
  | cons p rest ih =>
    obtain ⟨name, curr⟩ := p
    simp only [compare_benchmarks, compareGo, List.filterMap_cons] at *
    unfold unchEntry
    cases h : List.lookup name baseline with
    | none => simpa [h] using ih
    | some base_time =>
      simp only [h]
      split
      · simpa using ih
      · split
        · simpa using ih
        · split <;> simpa using ih

theorem skipped_eq_filterMap (baseline : RecordSet) (time_unit : String)
    (threshold : ℚ) (current : RecordSet) :
    (compare_benchmarks baseline current time_unit threshold).skipped =
      current.filterMap (skipEntry baseline time_unit) := by
  induction current with
  | nil => rfl
  | cons p rest ih =>
    obtain ⟨name, curr⟩ := p
    simp only [compare_benchmarks, compareGo, List.filterMap_cons] at *
    unfold skipEntry
    cases h : List.lookup name baseline with
    | none => simpa [h] using ih
    | some base_time =>
      simp only [h]
      split
      · simpa using ih
      · split
        · simpa using ih
        · split <;> simpa using ih

theorem MIN_TIME_THRESHOLD_pos (time_unit : String) :
    0 < MIN_TIME_THRESHOLD time_unit := by
  unfold MIN_TIME_THRESHOLD
  split_ifs <;> norm_num

theorem MIN_TIME_THRESHOLD_ms : MIN_TIME_THRESHOLD "ms" = 1 := rfl

theorem MIN_TIME_THRESHOLD_ns : MIN_TIME_THRESHOLD "ns" = 1000000 := rfl

theorem regEntry_eq_some_iff {baseline : RecordSet} {time_unit : String}
    {threshold : ℚ} {p : String × ℚ} {e : String × ℚ × ℚ × ℚ} :
    regEntry baseline time_unit threshold p = some e ↔
      ∃ base_time, List.lookup p.1 baseline = some base_time ∧
        ¬(base_time ≤ 0 ∨ base_time < MIN_TIME_THRESHOLD time_unit) ∧
        (p.2 - base_time) / base_time > threshold ∧
        e = (p.1, base_time, p.2, (p.2 - base_time) / base_time) := by
  unfold regEntry
  cases h : List.lookup p.1 baseline with
  | none => simp [h]
  | some base_time =>
    simp only [h, Option.some.injEq]
    split
    next hc =>
      simp [hc]
      intros
      rcases hc with h1 | h1 <;> linarith
    next hc =>
      split
      next hgt =>
        simp [hc, hgt, eq_comm]
        intro _
        push_neg at hc
        exact hc
      next hgt => simp [hc, hgt]

theorem impEntry_eq_some_iff {baseline : RecordSet} {time_unit : String}
    {threshold : ℚ} {p : String × ℚ} {e : String × ℚ × ℚ × ℚ} :
    impEntry baseline time_unit threshold p = some e ↔
      ∃ base_time, List.lookup p.1 baseline = some base_time ∧
        ¬(base_time ≤ 0 ∨ base_time < MIN_TIME_THRESHOLD time_unit) ∧
        ¬((p.2 - base_time) / base_time > threshold) ∧
        (p.2 - base_time) / base_time < -threshold ∧
        e = (p.1, base_time, p.2, (p.2 - base_time) / base_time) := by
  unfold impEntry
  cases h : List.lookup p.1 baseline with
  | none => simp [h]
  | some base_time =>
    simp only [h, Option.some.injEq]
    split
    next hc =>
      simp [hc]
      intros
      rcases hc with h1 | h1 <;> linarith
    next hc =>
      split
      next hgt => simp [hc, hgt]
      next hgt =>
        split
        next hlt =>
          simp [hc, hgt, hlt, eq_comm]
          constructor
          · intro he
            push_neg at hc hgt
            exact ⟨hc, hgt, he⟩
          · rintro ⟨-, -, he⟩
            exact he
        next hlt => simp [hc, hgt, hlt]

theorem unchEntry_eq_some_iff {baseline : RecordSet} {time_unit : String}
    {threshold : ℚ} {p : String × ℚ} {e : String × ℚ × Option ℚ × Option ℚ} :
    unchEntry baseline time_unit threshold p = some e ↔
      (List.lookup p.1 baseline = none ∧ e = (p.1, p.2, none, none)) ∨
      ∃ base_time, List.lookup p.1 baseline = some base_time ∧
        ¬(base_time ≤ 0 ∨ base_time < MIN_TIME_THRESHOLD time_unit) ∧
        ¬((p.2 - base_time) / base_time > threshold) ∧
        ¬((p.2 - base_time) / base_time < -threshold) ∧
        e = (p.1, base_time, some p.2, some ((p.2 - base_time) / base_time)) := by
  unfold unchEntry
  cases h : List.lookup p.1 baseline with
  | none => simp [h, eq_comm]
  | some base_time =>
    simp only [h, Option.some.injEq]
    split
    next hc =>
      simp [hc]
      intros
      rcases hc with h1 | h1 <;> linarith
    next hc =>
      split
      next hgt => simp [hc, hgt]
      next hgt =>
        split
        next hlt => simp [hc, hgt, hlt]
        next hlt =>
          simp [hc, hgt, hlt, eq_comm]
          constructor
          · intro he
            push_neg at hc hgt hlt
            exact ⟨hc, hgt, hlt, he⟩
          · rintro ⟨-, -, -, he⟩
            exact he

theorem skipEntry_eq_some_iff {baseline : RecordSet} {time_unit : String}
    {p : String × ℚ} {e : String × ℚ × ℚ} :
    skipEntry baseline time_unit p = some e ↔
      ∃ base_time, List.lookup p.1 baseline = some base_time ∧
        (base_time ≤ 0 ∨ base_time < MIN_TIME_THRESHOLD time_unit) ∧
        e = (p.1, base_time, p.2) := by
  unfold skipEntry
  cases h : List.lookup p.1 baseline with
  | none => simp [h]
  | some base_time =>
    simp only [h, Option.some.injEq]
    split
    next hc => simp [hc, eq_comm]
    next hc => simp [hc]

theorem mem_regressions_iff {baseline current : RecordSet} {time_unit : String}
    {threshold : ℚ} {e : String × ℚ × ℚ × ℚ} :
    e ∈ (compare_benchmarks baseline current time_unit threshold).regressions ↔
      ∃ p ∈ current, regEntry baseline time_unit threshold p = some e := by
  rw [regressions_eq_filterMap, List.mem_filterMap]

theorem mem_improvements_iff {baseline current : RecordSet} {time_unit : String}
    {threshold : ℚ} {e : String × ℚ × ℚ × ℚ} :
    e ∈ (compare_benchmarks baseline current time_unit threshold).improvements ↔
      ∃ p ∈ current, impEntry baseline time_unit threshold p = some e := by
  rw [improvements_eq_filterMap, List.mem_filterMap]

theorem mem_unchanged_iff {baseline current : RecordSet} {time_unit : String}
    {threshold : ℚ} {e : String × ℚ × Option ℚ × Option ℚ} :
    e ∈ (compare_benchmarks baseline current time_unit threshold).unchanged ↔
      ∃ p ∈ current, unchEntry baseline time_unit threshold p = some e := by
  rw [unchanged_eq_filterMap, List.mem_filterMap]

theorem mem_skipped_iff {baseline current : RecordSet} {time_unit : String}
    {threshold : ℚ} {e : String × ℚ × ℚ} :
    e ∈ (compare_benchmarks baseline current time_unit threshold).skipped ↔
      ∃ p ∈ current, skipEntry baseline time_unit p = some e := by
  rw [skipped_eq_filterMap, List.mem_filterMap]

/-- A name lookup in an association list with distinct keys does not depend
on the order of the entries (Python dicts have unique keys, so record order
never affects `baseline[name]`). -/
theorem lookup_eq_of_perm {l₁ l₂ : List (String × ℚ)} (h : l₁.Perm l₂)
    (nd : (l₁.map Prod.fst).Nodup) (a : String) :
    List.lookup a l₁ = List.lookup a l₂ := by
  induction h with
  | nil => rfl
  | cons p t ih =>
    obtain ⟨k, v⟩ := p
    simp only [List.lookup]
    cases hak : a == k with
    | true => rfl
    | false =>
      exact ih (by simpa using (List.nodup_cons.mp (by simpa using nd)).2)
  | swap p q l =>
    obtain ⟨k1, v1⟩ := p
    obtain ⟨k2, v2⟩ := q
    have hne : k2 ≠ k1 := by
      simp only [List.map, List.nodup_cons, List.mem_cons] at nd
      exact fun hh => nd.1 (Or.inl hh)
    simp only [List.lookup]
    cases hak2 : a == k2 with
    | true =>
      have : a = k2 := by simpa using hak2
      have hak1 : (a == k1) = false := by
        simp [this, hne]
      simp [hak1]
    | false =>
      cases hak1 : a == k1 <;> rfl
  | trans h₁ h₂ ih₁ ih₂ =>
    have nd₂ := (h₁.map Prod.fst).nodup nd
    exact (ih₁ nd).trans (ih₂ nd₂)

/-- C2 counterexample: with `time_unit = "ms"` the noise floor is 1 (1ms).
A record whose baseline value is exactly 1 — exactly at the noise floor — is
NOT skipped by `compare_benchmarks` (the guard is the strict `base_time <
MIN_TIME_THRESHOLD`): it is classified by the ratio rule and lands in
`unchanged` with ratio 0.  The claim said such a record is skipped. -/
theorem c2_noise_floor_counterexample :
    (compare_benchmarks [("parse_csv", 1)] [("parse_csv", 1)] "ms" (15 / 100)).skipped = [] ∧
    (compare_benchmarks [("parse_csv", 1)] [("parse_csv", 1)] "ms" (15 / 100)).unchanged =
      [("parse_csv", 1, some 1, some 0)] := by
  norm_num [compare_benchmarks, compareGo, MIN_TIME_THRESHOLD_ms, List.lookup]

/-- C2 (amended): a record present in both sets is skipped exactly when its
baseline value is ≤ 0 or strictly below the noise floor; a baseline value at
or above the noise floor (the floor itself included) is eligible and is
classified by the ratio rule (regression / improvement / unchanged). -/
theorem c2_noise_floor_amended (baseline current : RecordSet) (time_unit : String)
    (threshold : ℚ) (name : String) (base curr : ℚ)
    (hb : List.lookup name baseline = some base) (hc : (name, curr) ∈ current) :
    ((name, base, curr) ∈ (compare_benchmarks baseline current time_unit threshold).skipped
      ↔ (base ≤ 0 ∨ base < MIN_TIME_THRESHOLD time_unit)) ∧
    (MIN_TIME_THRESHOLD time_unit ≤ base →
      (name, base, curr, (curr - base) / base) ∈
          (compare_benchmarks baseline current time_unit threshold).regressions ∨
      (name, base, curr, (curr - base) / base) ∈
          (compare_benchmarks baseline current time_unit threshold).improvements ∨
      (name, base, some curr, some ((curr - base) / base)) ∈
          (compare_benchmarks baseline current time_unit threshold).unchanged) := by
  constructor
  · constructor
    · intro hm
      rw [mem_skipped_iff] at hm
      obtain ⟨p, hp, he⟩ := hm
      rw [skipEntry_eq_some_iff] at he
      obtain ⟨bt, hbt, hcond, heq⟩ := he
      have h2 : base = bt := congrArg (fun x => x.2.1) heq
      rw [h2]
      exact hcond
    · intro hcond
      rw [mem_skipped_iff]
      exact ⟨(name, curr), hc, skipEntry_eq_some_iff.mpr ⟨base, hb, hcond, rfl⟩⟩
  · intro hge
    have hc0 : ¬(base ≤ 0 ∨ base < MIN_TIME_THRESHOLD time_unit) := by
      push_neg
      exact ⟨lt_of_lt_of_le (MIN_TIME_THRESHOLD_pos time_unit) hge, hge⟩
    by_cases hgt : (curr - base) / base > threshold
    · left
      rw [mem_regressions_iff]
      exact ⟨(name, curr), hc, regEntry_eq_some_iff.mpr ⟨base, hb, hc0, hgt, rfl⟩⟩
    · by_cases hlt : (curr - base) / base < -threshold
      · right; left
        rw [mem_improvements_iff]
        exact ⟨(name, curr), hc, impEntry_eq_some_iff.mpr ⟨base, hb, hc0, hgt, hlt, rfl⟩⟩
      · right; right
        rw [mem_unchanged_iff]
        exact ⟨(name, curr), hc,
          unchEntry_eq_some_iff.mpr (Or.inr ⟨base, hb, hc0, hgt, hlt, rfl⟩)⟩

/-- Witness for the amended C2 at a concrete input (baseline 5ms, well above
the 1ms floor, current 2ms). -/
theorem c2_noise_floor_amended_witness :
    ((("a", (5 : ℚ), (2 : ℚ)) ∈ (compare_benchmarks [("a", 5)] [("a", 2)] "ms" (15 / 100)).skipped
      ↔ ((5 : ℚ) ≤ 0 ∨ (5 : ℚ) < MIN_TIME_THRESHOLD "ms")) ∧
    (MIN_TIME_THRESHOLD "ms" ≤ (5 : ℚ) →
      ("a", (5 : ℚ), (2 : ℚ), ((2 : ℚ) - 5) / 5) ∈
          (compare_benchmarks [("a", 5)] [("a", 2)] "ms" (15 / 100)).regressions ∨
      ("a", (5 : ℚ), (2 : ℚ), ((2 : ℚ) - 5) / 5) ∈
          (compare_benchmarks [("a", 5)] [("a", 2)] "ms" (15 / 100)).improvements ∨
      ("a", (5 : ℚ), some (2 : ℚ), some (((2 : ℚ) - 5) / 5)) ∈
          (compare_benchmarks [("a", 5)] [("a", 2)] "ms" (15 / 100)).unchanged)) :=
  c2_noise_floor_amended [("a", 5)] [("a", 2)] "ms" (15 / 100) "a" 5 2 rfl (by simp)

/-- C3: a name present in `current` but absent from `baseline` is classified
`new`: `compare_benchmarks` emits `(name, curr_time, None, None)` into the
`unchanged` list (the `None` ratio is the `new` marker which `main` renders
as "(new benchmark)"), no ratio is computed for it, and no entry with that
name ever appears in `regressions`, so it never contributes to the failure
verdict. -/
theorem c3_new_benchmark (baseline current : RecordSet) (time_unit : String)
    (threshold : ℚ) (name : String) (curr : ℚ)
    (hb : List.lookup name baseline = none) (hc : (name, curr) ∈ current) :
    classify baseline time_unit threshold name curr = Classification.new ∧
    (name, curr, none, none) ∈ (compare_benchmarks baseline current time_unit threshold).unchanged ∧
    ∀ e ∈ (compare_benchmarks baseline current time_unit threshold).regressions, e.1 ≠ name := by
  refine ⟨by simp [classify, hb], ?_, ?_⟩
  · rw [mem_unchanged_iff]
    exact ⟨(name, curr), hc, unchEntry_eq_some_iff.mpr (Or.inl ⟨hb, rfl⟩)⟩
  · intro e he
    rw [mem_regressions_iff] at he
    obtain ⟨p, hp, hee⟩ := he
    rw [regEntry_eq_some_iff] at hee
    obtain ⟨bt, hbt, -, -, heq⟩ := hee
    intro hne
    rw [heq] at hne
    have h1 : p.1 = name := hne
    rw [h1, hb] at hbt
    cases hbt

/-- Witness for C3 at a concrete input: "b" is in current only. -/
theorem c3_new_benchmark_witness :
    classify [("a", 5)] "ms" (15 / 100) "b" 3 = Classification.new ∧
    ("b", (3 : ℚ), none, none) ∈ (compare_benchmarks [("a", 5)] [("b", 3)] "ms" (15 / 100)).unchanged ∧
    ∀ e ∈ (compare_benchmarks [("a", 5)] [("b", 3)] "ms" (15 / 100)).regressions, e.1 ≠ "b" :=
  c3_new_benchmark [("a", 5)] [("b", 3)] "ms" (15 / 100) "b" 3 rfl (by simp)

/-- C5: for a record present in both sets with baseline value strictly above
the noise floor, and a nonnegative relative threshold (the configured range
is 0.10–0.15), the ratio is `(current − baseline) / baseline` and the record
is a regression exactly when `ratio > threshold`, an improvement exactly when
`ratio < −threshold`, and unchanged exactly otherwise. -/
theorem c5_ratio_rule (baseline current : RecordSet) (time_unit : String)
    (threshold : ℚ) (name : String) (base curr : ℚ)
    (ht : 0 ≤ threshold)
    (hb : List.lookup name baseline = some base) (hc : (name, curr) ∈ current)
    (hfloor : MIN_TIME_THRESHOLD time_unit < base) :
    ((name, base, curr, (curr - base) / base) ∈
        (compare_benchmarks baseline current time_unit threshold).regressions ↔
      (curr - base) / base > threshold) ∧
    ((name, base, curr, (curr - base) / base) ∈
        (compare_benchmarks baseline current time_unit threshold).improvements ↔
      (curr - base) / base < -threshold) ∧
    ((name, base, some curr, some ((curr - base) / base)) ∈
        (compare_benchmarks baseline current time_unit threshold).unchanged ↔
      (¬((curr - base) / base > threshold) ∧ ¬((curr - base) / base < -threshold))) := by
  have hc0 : ¬(base ≤ 0 ∨ base < MIN_TIME_THRESHOLD time_unit) := by
    push_neg
    exact ⟨lt_trans (MIN_TIME_THRESHOLD_pos time_unit) hfloor, le_of_lt hfloor⟩
  refine ⟨⟨?_, ?_⟩, ⟨?_, ?_⟩, ⟨?_, ?_⟩⟩
  · intro hm
    rw [mem_regressions_iff] at hm
    obtain ⟨p, hp, he⟩ := hm
    rw [regEntry_eq_some_iff] at he
    obtain ⟨bt, hbt, -, hgt, heq⟩ := he
    have h2 : base = bt := congrArg (fun x => x.2.1) heq
    have h3 : curr = p.2 := congrArg (fun x => x.2.2.1) heq
    rw [h2, h3]
    exact hgt
  · intro hgt
    rw [mem_regressions_iff]
    exact ⟨(name, curr), hc, regEntry_eq_some_iff.mpr ⟨base, hb, hc0, hgt, rfl⟩⟩
  · intro hm
    rw [mem_improvements_iff] at hm
    obtain ⟨p, hp, he⟩ := hm
    rw [impEntry_eq_some_iff] at he
    obtain ⟨bt, hbt, -, -, hlt, heq⟩ := he
    have h2 : base = bt := congrArg (fun x => x.2.1) heq
    have h3 : curr = p.2 := congrArg (fun x => x.2.2.1) heq
    rw [h2, h3]
    exact hlt
  · intro hlt
    have hgt : ¬((curr - base) / base > threshold) := by
      intro hgt
      have : -threshold ≤ threshold := by linarith
      linarith
    rw [mem_improvements_iff]
    exact ⟨(name, curr), hc, impEntry_eq_some_iff.mpr ⟨base, hb, hc0, hgt, hlt, rfl⟩⟩
  · intro hm
    rw [mem_unchanged_iff] at hm
    obtain ⟨p, hp, he⟩ := hm
    rw [unchEntry_eq_some_iff] at he
    rcases he with ⟨-, heq⟩ | ⟨bt, hbt, -, hgt, hlt, heq⟩
    · exact absurd (congrArg (fun x => x.2.2.1) heq) (by simp)
    · have h2 : base = bt := congrArg (fun x => x.2.1) heq
      have h3 : some curr = some p.2 := congrArg (fun x => x.2.2.1) heq
      have h3' : curr = p.2 := Option.some.inj h3
      rw [h2, h3']
      exact ⟨hgt, hlt⟩
  · intro ⟨hgt, hlt⟩
    rw [mem_unchanged_iff]
    exact ⟨(name, curr), hc, unchEntry_eq_some_iff.mpr (Or.inr ⟨base, hb, hc0, hgt, hlt, rfl⟩)⟩

/-- Witness for C5: Scenario A of the spec — baseline 10ms, current 12ms,
threshold 0.10 yields classification regression with ratio 0.20. -/
theorem c5_ratio_rule_witness :
    ("parse_csv", (10 : ℚ), (12 : ℚ), (1 / 5 : ℚ)) ∈
      (compare_benchmarks [("parse_csv", 10)] [("parse_csv", 12)] "ms" (1 / 10)).regressions := by
  have h := (c5_ratio_rule [("parse_csv", 10)] [("parse_csv", 12)] "ms" (1 / 10)
    "parse_csv" 10 12 (by norm_num) rfl (by simp) (by norm_num [MIN_TIME_THRESHOLD_ms])).1.mpr
    (by norm_num)
  have he : ((12 : ℚ) - 10) / 10 = 1 / 5 := by norm_num
  rwa [he] at h

/-- C6: raising the relative threshold from `t1` to `t2` (thresholds are
nonnegative, per the configured 0.10–0.15 range) can only move a record from
regression or improvement to unchanged, never the reverse, and it never
changes which records are skipped or new. -/
theorem c6_threshold_monotone (baseline : RecordSet) (time_unit : String)
    (name : String) (curr : ℚ) (t1 t2 : ℚ) (h0 : 0 ≤ t1) (h12 : t1 ≤ t2) :
    (classify baseline time_unit t2 name curr = Classification.regression →
       classify baseline time_unit t1 name curr = Classification.regression) ∧
    (classify baseline time_unit t2 name curr = Classification.improvement →
       classify baseline time_unit t1 name curr = Classification.improvement) ∧
    (classify baseline time_unit t1 name curr = Classification.regression →
       classify baseline time_unit t2 name curr = Classification.regression ∨
       classify baseline time_unit t2 name curr = Classification.unchanged) ∧
    (classify baseline time_unit t1 name curr = Classification.improvement →
       classify baseline time_unit t2 name curr = Classification.improvement ∨
       classify baseline time_unit t2 name curr = Classification.unchanged) ∧
    (classify baseline time_unit t1 name curr = Classification.unchanged →
       classify baseline time_unit t2 name curr = Classification.unchanged) ∧
    (classify baseline time_unit t1 name curr = Classification.skipped ↔
       classify baseline time_unit t2 name curr = Classification.skipped) ∧
    (classify baseline time_unit t1 name curr = Classification.new ↔
       classify baseline time_unit t2 name curr = Classification.new) := by
  cases hl : List.lookup name baseline with
  | none => simp [classify, hl]
  | some base =>
    by_cases hsk : base ≤ 0 ∨ base < MIN_TIME_THRESHOLD time_unit
    · simp [classify, hl, hsk]
    · by_cases hgt2 : (curr - base) / base > t2
      · have hgt1 : (curr - base) / base > t1 := lt_of_le_of_lt h12 hgt2
        simp [classify, hl, hsk, hgt1, hgt2]
      · by_cases hgt1 : (curr - base) / base > t1
        · have hlt2 : ¬((curr - base) / base < -t2) := by
            push_neg at hgt2 ⊢
            linarith
          simp [classify, hl, hsk, hgt1, hgt2, hlt2]
        · by_cases hlt2 : (curr - base) / base < -t2
          · have hlt1 : (curr - base) / base < -t1 := by linarith
            simp [classify, hl, hsk, hgt1, hgt2, hlt1, hlt2]
          · by_cases hlt1 : (curr - base) / base < -t1
            · simp [classify, hl, hsk, hgt1, hgt2, hlt1, hlt2]
            · simp [classify, hl, hsk, hgt1, hgt2, hlt1, hlt2]

/-- Witness for C6 at a concrete input: baseline 2ms, current 3ms,
thresholds 0.10 and 0.25. -/
theorem c6_threshold_monotone_witness :
    (classify [("a", 2)] "ms" (1 / 4) "a" 3 = Classification.regression →
       classify [("a", 2)] "ms" (1 / 10) "a" 3 = Classification.regression) ∧
    (classify [("a", 2)] "ms" (1 / 4) "a" 3 = Classification.improvement →
       classify [("a", 2)] "ms" (1 / 10) "a" 3 = Classification.improvement) ∧
    (classify [("a", 2)] "ms" (1 / 10) "a" 3 = Classification.regression →
       classify [("a", 2)] "ms" (1 / 4) "a" 3 = Classification.regression ∨
       classify [("a", 2)] "ms" (1 / 4) "a" 3 = Classification.unchanged) ∧
    (classify [("a", 2)] "ms" (1 / 10) "a" 3 = Classification.improvement →
       classify [("a", 2)] "ms" (1 / 4) "a" 3 = Classification.improvement ∨
       classify [("a", 2)] "ms" (1 / 4) "a" 3 = Classification.unchanged) ∧
    (classify [("a", 2)] "ms" (1 / 10) "a" 3 = Classification.unchanged →
       classify [("a", 2)] "ms" (1 / 4) "a" 3 = Classification.unchanged) ∧
    (classify [("a", 2)] "ms" (1 / 10) "a" 3 = Classification.skipped ↔
       classify [("a", 2)] "ms" (1 / 4) "a" 3 = Classification.skipped) ∧
    (classify [("a", 2)] "ms" (1 / 10) "a" 3 = Classification.new ↔
       classify [("a", 2)] "ms" (1 / 4) "a" 3 = Classification.new) :=
  c6_threshold_monotone [("a", 2)] "ms" "a" 3 (1 / 10) (1 / 4) (by norm_num) (by norm_num)

theorem perm_extract2 {α : Type} (A B C D : List α) (a : α) :
    (A ++ (a :: B) ++ C ++ D).Perm (a :: (A ++ B ++ C ++ D)) := by
  have e1 : A ++ (a :: B) ++ C ++ D = A ++ a :: (B ++ C ++ D) := by
    simp [List.append_assoc]
  have e2 : A ++ B ++ C ++ D = A ++ (B ++ C ++ D) := by
    simp [List.append_assoc]
  rw [e1, e2]
  exact List.perm_middle

theorem perm_extract3 {α : Type} (A B C D : List α) (a : α) :
    (A ++ B ++ (a :: C) ++ D).Perm (a :: (A ++ B ++ C ++ D)) := by
  have e1 : A ++ B ++ (a :: C) ++ D = (A ++ B) ++ a :: (C ++ D) := by
    simp [List.append_assoc]
  have e2 : A ++ B ++ C ++ D = (A ++ B) ++ (C ++ D) := by
    simp [List.append_assoc]
  rw [e1, e2]
  exact List.perm_middle

/-- C10: the four lists returned by `compare_benchmarks` partition the names
of the current set — the concatenation of their name columns is a
permutation of `current`'s name column, so every current name appears in
exactly one bucket (once, when names are unique, as in a dict) and no other
name appears in any bucket. -/
theorem c10_buckets_partition_names (baseline current : RecordSet)
    (time_unit : String) (threshold : ℚ) :
    ((compare_benchmarks baseline current time_unit threshold).regressions.map (fun e => e.1) ++
     (compare_benchmarks baseline current time_unit threshold).improvements.map (fun e => e.1) ++
     (compare_benchmarks baseline current time_unit threshold).unchanged.map (fun e => e.1) ++
     (compare_benchmarks baseline current time_unit threshold).skipped.map (fun e => e.1)).Perm
      (current.map Prod.fst) := by
  induction current with
  | nil => exact List.Perm.refl _
  | cons p rest ih =>
    obtain ⟨name, curr⟩ := p
    simp only [compare_benchmarks, compareGo] at *
    cases hlk : List.lookup name baseline with
    | none =>
      simp only [hlk, List.map_cons]
      exact (perm_extract3 _ _ _ _ name).trans (ih.cons name)
    | some base =>
      simp only [hlk]
      by_cases hsk : base ≤ 0 ∨ base < MIN_TIME_THRESHOLD time_unit
      · simp only [if_pos hsk, List.map_cons]
        exact List.perm_middle.trans (ih.cons name)
      · simp only [if_neg hsk]
        by_cases hgt : (curr - base) / base > threshold
        · simp only [if_pos hgt, List.map_cons, List.cons_append]
          exact ih.cons name
        · simp only [if_neg hgt]
          by_cases hlt : (curr - base) / base < -threshold
          · simp only [if_pos hlt, List.map_cons]
            exact (perm_extract2 _ _ _ _ name).trans (ih.cons name)
          · simp only [if_neg hlt, List.map_cons]
            exact (perm_extract3 _ _ _ _ name).trans (ih.cons name)

/-- C1 counterexample: a current set with fewer names than
`EXPECTED_BENCHMARK_COUNT` makes `main` exit 1 even though
`compare_benchmarks` reports no regression at all, so the run's failure is
not equivalent to the existence of a regression classification. -/
theorem c1_verdict_counterexample :
    mainExit false (some [("a", 5)]) [("a", 5)] "ms" (15 / 100) = 1 ∧
    (compare_benchmarks [("a", 5)] [("a", 5)] "ms" (15 / 100)).regressions = [] := by
  constructor
  · rfl
  · norm_num [compare_benchmarks, compareGo, MIN_TIME_THRESHOLD_ms, List.lookup]

/-- C1 (amended): provided the current set passes the minimum-count
validation, `main` exits non-zero exactly when `compare_benchmarks` produced
at least one regression entry, and the verdict is unchanged under any
reordering of the baseline records (their keys being unique, as in a dict)
and of the current records. -/
theorem c1_verdict_amended (relative_mode : Bool) (baseline current : RecordSet)
    (time_unit : String) (threshold : ℚ)
    (hlen : EXPECTED_BENCHMARK_COUNT ≤ current.length)
    (hnd : (baseline.map Prod.fst).Nodup) :
    (mainExit relative_mode (some baseline) current time_unit threshold ≠ 0 ↔
      (compare_benchmarks baseline current time_unit threshold).regressions ≠ []) ∧
    (∀ baseline' current' : RecordSet, baseline.Perm baseline' → current.Perm current' →
      mainExit relative_mode (some baseline) current time_unit threshold =
        mainExit relative_mode (some baseline') current' time_unit threshold) := by
  constructor
  · unfold mainExit
    rw [if_neg (not_lt.mpr hlen)]
    by_cases hr : (compare_benchmarks baseline current time_unit threshold).regressions = []
    · simp [hr]
    · simp [hr]
  · intro baseline' current' hpb hpc
    have h1 : ¬(current.length < EXPECTED_BENCHMARK_COUNT) := not_lt.mpr hlen
    have h2 : ¬(current'.length < EXPECTED_BENCHMARK_COUNT) := by
      rw [← hpc.length_eq]
      exact h1
    have hre : ((compare_benchmarks baseline current time_unit threshold).regressions = []) ↔
        ((compare_benchmarks baseline' current' time_unit threshold).regressions = []) := by
      rw [regressions_eq_filterMap, regressions_eq_filterMap]
      have hfun : regEntry baseline' time_unit threshold = regEntry baseline time_unit threshold := by
        funext p
        unfold regEntry
        rw [lookup_eq_of_perm hpb hnd p.1]
      rw [hfun]
      have hperm := hpc.filterMap (regEntry baseline time_unit threshold)
      constructor
      · intro h
        exact List.Perm.eq_nil ((h ▸ hperm).symm)
      · intro h
        exact List.Perm.eq_nil (h ▸ hperm)
    unfold mainExit
    rw [if_neg h1, if_neg h2]
    dsimp only
    by_cases hr : (compare_benchmarks baseline current time_unit threshold).regressions = []
    · rw [if_pos hr, if_pos (hre.mp hr)]
    · rw [if_neg hr, if_neg (fun hh => hr (hre.mpr hh))]

/-- Witness for the amended C1: seven benchmarks, one regressed. -/
theorem c1_verdict_amended_witness :
    ((mainExit false
        (some [("a", 5), ("b", 5), ("c", 5), ("d", 5), ("e", 5), ("f", 5), ("g", 5)])
        [("a", 9), ("b", 5), ("c", 5), ("d", 5), ("e", 5), ("f", 5), ("g", 5)]
        "ms" (15 / 100) ≠ 0 ↔
      (compare_benchmarks
        [("a", 5), ("b", 5), ("c", 5), ("d", 5), ("e", 5), ("f", 5), ("g", 5)]
        [("a", 9), ("b", 5), ("c", 5), ("d", 5), ("e", 5), ("f", 5), ("g", 5)]
        "ms" (15 / 100)).regressions ≠ []) ∧
    (∀ baseline' current' : RecordSet,
      List.Perm [("a", 5), ("b", 5), ("c", 5), ("d", 5), ("e", 5), ("f", 5), ("g", 5)] baseline' →
      List.Perm [("a", 9), ("b", 5), ("c", 5), ("d", 5), ("e", 5), ("f", 5), ("g", 5)] current' →
      mainExit false
        (some [("a", 5), ("b", 5), ("c", 5), ("d", 5), ("e", 5), ("f", 5), ("g", 5)])
        [("a", 9), ("b", 5), ("c", 5), ("d", 5), ("e", 5), ("f", 5), ("g", 5)]
        "ms" (15 / 100) =
      mainExit false (some baseline') current' "ms" (15 / 100))) :=
  c1_verdict_amended false
    [("a", 5), ("b", 5), ("c", 5), ("d", 5), ("e", 5), ("f", 5), ("g", 5)]
    [("a", 9), ("b", 5), ("c", 5), ("d", 5), ("e", 5), ("f", 5), ("g", 5)]
    "ms" (15 / 100) (by decide) (by decide)

theorem extractStep_errored (st : List (String × List ℚ) × String) (e : BenchEntry)
    (he : entryErrored e = true) : extractStep st e = st := by
  unfold extractStep
  split
  · rfl
  · simp [he]

theorem extractStep_unusable (st : List (String × List ℚ) × String) (e : BenchEntry)
    (hu : entryUnusable e) : extractStep st e = st := by
  rcases hu with h1 | h1 | h1
  · unfold extractStep
    simp [h1]
  · exact extractStep_errored st e h1
  · unfold extractStep
    split
    · rfl
    · split
      · rfl
      · rw [h1]

theorem extractResults_unusable (benchmarks : List BenchEntry)
    (h : ∀ e ∈ benchmarks, entryUnusable e) : extractResults benchmarks = ([], "ns") := by
  have hgen : ∀ (l : List BenchEntry), (∀ e ∈ l, entryUnusable e) →
      ∀ st, l.foldl extractStep st = st := by
    intro l
    induction l with
    | nil => intro _ st; rfl
    | cons e rest ih =>
      intro hl st
      rw [List.foldl_cons, extractStep_unusable st e (hl e (List.mem_cons_self e rest))]
      exact ih (fun x hx => hl x (List.mem_cons_of_mem e hx)) st
  exact hgen benchmarks h ([], "ns")

/-- C7: in non-strict mode an entry carrying an error flag or message
contributes nothing to the returned record set (removing it leaves
`load_benchmark`'s result unchanged), and in strict mode `load_benchmark`
fails with the error list, which contains the name and message of every
failing entry. -/
theorem c7_error_handling (l1 l2 : List BenchEntry) (e : BenchEntry)
    (he : entryErrored e = true) :
    load_benchmark (l1 ++ e :: l2) false = load_benchmark (l1 ++ l2) false ∧
    load_benchmark (l1 ++ e :: l2) true = Except.error (benchErrors (l1 ++ e :: l2)) ∧
    (∀ q ∈ l1 ++ e :: l2, entryErrored q = true →
      (q.name.getD "unknown", q.error_message.getD "Unknown error") ∈
        benchErrors (l1 ++ e :: l2)) := by
  have hmemAll : ∀ q ∈ l1 ++ e :: l2, entryErrored q = true →
      (q.name.getD "unknown", q.error_message.getD "Unknown error") ∈
        benchErrors (l1 ++ e :: l2) := by
    intro q hq hqe
    unfold benchErrors
    rw [List.mem_filterMap]
    exact ⟨q, hq, by rw [if_pos hqe]⟩
  have hext : extractResults (l1 ++ e :: l2) = extractResults (l1 ++ l2) := by
    unfold extractResults
    rw [List.foldl_append, List.foldl_cons, extractStep_errored _ _ he, ← List.foldl_append]
  refine ⟨?_, ?_, hmemAll⟩
  · simp only [load_benchmark, Bool.false_eq_true, and_false, if_false, hext]
  · have hne : benchErrors (l1 ++ e :: l2) ≠ [] :=
      List.ne_nil_of_mem (hmemAll e (by simp) he)
    simp [load_benchmark, hne]

/-- Witness for C7 at a concrete input: one clean entry and one errored
entry. -/
theorem c7_error_handling_witness :
    load_benchmark ([cleanEntry] ++ erroredEntry :: []) false =
      load_benchmark ([cleanEntry] ++ []) false ∧
    load_benchmark ([cleanEntry] ++ erroredEntry :: []) true =
      Except.error (benchErrors ([cleanEntry] ++ erroredEntry :: [])) ∧
    (∀ q ∈ [cleanEntry] ++ erroredEntry :: [], entryErrored q = true →
      (q.name.getD "unknown", q.error_message.getD "Unknown error") ∈
        benchErrors ([cleanEntry] ++ erroredEntry :: [])) :=
  c7_error_handling [cleanEntry] [] erroredEntry (by decide)

/-- C8 counterexample: a document whose only entry is an aggregate row
yields zero usable records, yet `load_benchmark` returns an (empty) record
set instead of failing. -/
theorem c8_empty_counterexample :
    load_benchmark [aggOnlyEntry] false = Except.ok ([], "ns") := by
  rfl

/-- C8 (amended): on a document with zero usable entries `load_benchmark`
returns an empty record set (it never raises an empty-result error); the
failure is the callers' doing — `check_regression.main` rejects the empty
set through its minimum-count validation, and `analyze_hypotheses.main`
exits with an error when the loaded list is empty. -/
theorem c8_empty_amended (benchmarks : List BenchEntry)
    (relative_mode : Bool) (bset : RecordSet) (time_unit : String) (threshold : ℚ)
    (h : ∀ e ∈ benchmarks, entryUnusable e) :
    load_benchmark benchmarks false = Except.ok ([], "ns") ∧
    mainExit relative_mode (some bset) [] time_unit threshold = 1 ∧
    (∀ raws : List AnalyzeHypotheses.RawBench,
      (∀ r ∈ raws, truthyStr r.aggregate_name = true) →
      AnalyzeHypotheses.analyzeMainExit raws = 1) := by
  refine ⟨?_, ?_, ?_⟩
  · simp only [load_benchmark, Bool.false_eq_true, and_false, if_false,
      extractResults_unusable benchmarks h, List.map_nil]
  · simp [mainExit, EXPECTED_BENCHMARK_COUNT]
  · intro raws hr
    unfold AnalyzeHypotheses.analyzeMainExit
    have hl : AnalyzeHypotheses.load_results raws = [] := by
      unfold AnalyzeHypotheses.load_results
      have hf : raws.filter (fun b => !truthyStr b.aggregate_name) = [] := by
        rw [List.filter_eq_nil_iff]
        intro a ha
        simp [hr a ha]
      rw [hf]
      rfl
    rw [if_pos hl]

/-- Witness for the amended C8 at a concrete input: an aggregate row and an
errored row. -/
theorem c8_empty_amended_witness :
    load_benchmark [aggOnlyEntry, erroredEntry] false = Except.ok ([], "ns") ∧
    mainExit false (some [("a", 5)]) [] "ms" (15 / 100) = 1 ∧
    (∀ raws : List AnalyzeHypotheses.RawBench,
      (∀ r ∈ raws, truthyStr r.aggregate_name = true) →
      AnalyzeHypotheses.analyzeMainExit raws = 1) :=
  c8_empty_amended [aggOnlyEntry, erroredEntry] false [("a", 5)] "ms" (15 / 100) (by decide)

end CheckRegression

namespace AnalyzeHypotheses

theorem analyze_h6_sequential_ratios (results : List BenchmarkResult) :
    (analyze_h6 results).sequential_ratios = h6SeqRatios results := by
  unfold analyze_h6
  split <;> rfl

theorem analyze_h6_random_ratios (results : List BenchmarkResult) :
    (analyze_h6 results).random_ratios = h6RandRatios results := by
  unfold analyze_h6
  split <;> rfl

theorem analyze_h6_details (results : List BenchmarkResult) :
    (analyze_h6 results).details = h6Details results := by
  unfold analyze_h6
  split <;> rfl

theorem analyze_h6_aggregates (results : List BenchmarkResult)
    (h1 : h6SeqRatios results ≠ []) (h2 : h6RandRatios results ≠ []) :
    (analyze_h6 results).avg_sequential_ratio = some (PyFloat.mean (h6SeqRatios results)) ∧
    (analyze_h6 results).max_sequential_ratio = some (PyFloat.maxList (h6SeqRatios results)) := by
  unfold analyze_h6
  rw [if_pos ⟨h1, h2⟩]
  exact ⟨rfl, rfl⟩

theorem PyFloat.add_inf_right (x : PyFloat) : PyFloat.add x PyFloat.inf = PyFloat.inf := by
  cases x <;> rfl

theorem PyFloat.add_inf_left (x : PyFloat) : PyFloat.add PyFloat.inf x = PyFloat.inf := by
  cases x <;> rfl

theorem PyFloat.foldl_add_inf (l : List PyFloat) :
    ∀ acc, (PyFloat.inf ∈ l ∨ acc = PyFloat.inf) →
      l.foldl PyFloat.add acc = PyFloat.inf := by
  induction l with
  | nil =>
    intro acc h
    rcases h with h | h
    · cases h
    · simpa using h
  | cons x t ih =>
    intro acc h
    rw [List.foldl_cons]
    rcases h with h | h
    · rcases List.mem_cons.mp h with h | h
      · subst h
        exact ih _ (Or.inr (PyFloat.add_inf_right acc))
      · exact ih _ (Or.inl h)
    · exact ih _ (Or.inr (by rw [h]; exact PyFloat.add_inf_left x))

theorem PyFloat.mean_inf {l : List PyFloat} (h : PyFloat.inf ∈ l) :
    PyFloat.mean l = PyFloat.inf := by
  unfold PyFloat.mean PyFloat.sum
  rw [PyFloat.foldl_add_inf l _ (Or.inl h)]
  rfl

theorem PyFloat.max2_inf_right (x : PyFloat) : PyFloat.max2 x PyFloat.inf = PyFloat.inf := by
  cases x <;> rfl

theorem PyFloat.max2_inf_left (x : PyFloat) : PyFloat.max2 PyFloat.inf x = PyFloat.inf := by
  cases x <;> rfl

theorem PyFloat.foldl_max2_inf (l : List PyFloat) :
    ∀ acc, (PyFloat.inf ∈ l ∨ acc = PyFloat.inf) →
      l.foldl PyFloat.max2 acc = PyFloat.inf := by
  induction l with
  | nil =>
    intro acc h
    rcases h with h | h
    · cases h
    · simpa using h
  | cons x t ih =>
    intro acc h
    rw [List.foldl_cons]
    rcases h with h | h
    · rcases List.mem_cons.mp h with h | h
      · subst h
        exact ih _ (Or.inr (PyFloat.max2_inf_right acc))
      · exact ih _ (Or.inl h)
    · exact ih _ (Or.inr (by rw [h]; exact PyFloat.max2_inf_left x))

theorem PyFloat.maxList_inf {l : List PyFloat} (h : PyFloat.inf ∈ l) :
    PyFloat.maxList l = PyFloat.inf := by
  cases l with
  | nil => cases h
  | cons x t =>
    unfold PyFloat.maxList
    rcases List.mem_cons.mp h with h | h
    · exact PyFloat.foldl_max2_inf t _ (Or.inr h.symm)
    · exact PyFloat.foldl_max2_inf t _ (Or.inl h)

/-- C4 (amended): a matched pair whose denominator is non-positive yields
the ratio `inf`, which is retained in the detail list AND included in the
aggregate statistics: whenever the aggregates are computed at all, both the
mean and the max over the sequential ratios become infinite. -/
theorem c4_inf_retention (results : List BenchmarkResult) (nc wc : BenchmarkResult)
    (hnc : nc ∈ group_by_name_start results "BM_H6_FieldAccess_NoCompact")
    (hw : h6SeqMatch (group_by_name_start results "BM_H6_FieldAccess_WithCompact") nc = some wc)
    (hz : wc.real_time ≤ 0) :
    PyFloat.inf ∈ (analyze_h6 results).sequential_ratios ∧
    (nc.real_time, wc.real_time, PyFloat.inf) ∈ (analyze_h6 results).details ∧
    ((analyze_h6 results).random_ratios ≠ [] →
      (analyze_h6 results).avg_sequential_ratio = some PyFloat.inf ∧
      (analyze_h6 results).max_sequential_ratio = some PyFloat.inf) := by
  have hpair : (nc, wc) ∈ h6SeqPairs results := by
    unfold h6SeqPairs
    rw [List.mem_filterMap]
    exact ⟨nc, hnc, by rw [hw]; rfl⟩
  have hratio : pyRatio nc.real_time wc.real_time = PyFloat.inf := by
    unfold pyRatio
    rw [if_neg (not_lt.mpr hz)]
  have hmemseq : PyFloat.inf ∈ h6SeqRatios results := by
    unfold h6SeqRatios
    rw [List.mem_map]
    exact ⟨(nc, wc), hpair, hratio⟩
  refine ⟨by rw [analyze_h6_sequential_ratios]; exact hmemseq, ?_, ?_⟩
  · rw [analyze_h6_details]
    unfold h6Details
    apply List.mem_append_left
    rw [List.mem_map]
    exact ⟨(nc, wc), hpair, by rw [hratio]⟩
  · intro hrand
    rw [analyze_h6_random_ratios] at hrand
    have hagg := analyze_h6_aggregates results (List.ne_nil_of_mem hmemseq) hrand
    constructor
    · rw [hagg.1, PyFloat.mean_inf hmemseq]
    · rw [hagg.2, PyFloat.maxList_inf hmemseq]

/-- Witness for the amended C4 at the concrete sample: the pair
(`c4ncB`, `c4wcB`) has denominator 0. -/
theorem c4_inf_retention_witness :
    PyFloat.inf ∈ (analyze_h6 c4sample).sequential_ratios ∧
    (c4ncB.real_time, c4wcB.real_time, PyFloat.inf) ∈ (analyze_h6 c4sample).details ∧
    ((analyze_h6 c4sample).random_ratios ≠ [] →
      (analyze_h6 c4sample).avg_sequential_ratio = some PyFloat.inf ∧
      (analyze_h6 c4sample).max_sequential_ratio = some PyFloat.inf) :=
  c4_inf_retention c4sample c4ncB c4wcB (by decide) (by decide) (by decide)

/-- C4 counterexample: in the concrete sample the zero-denominator pair
produces the ratio `inf`, and the aggregates are computed over the full
ratio list, so `avg_sequential_ratio` and `max_sequential_ratio` are both
`inf` — they differ from the spec-mandated aggregate that excludes infinite
ratios (which here is 2).  The infinite ratio is therefore NOT excluded from
the aggregate statistics. -/
theorem c4_inf_excluded_counterexample :
    (analyze_h6 c4sample).sequential_ratios = [PyFloat.fin (4 / 2), PyFloat.inf] ∧
    (analyze_h6 c4sample).avg_sequential_ratio = some PyFloat.inf ∧
    (analyze_h6 c4sample).max_sequential_ratio = some PyFloat.inf ∧
    meanExcludingInf (analyze_h6 c4sample).sequential_ratios = PyFloat.fin 2 ∧
    some PyFloat.inf ≠ some (PyFloat.fin 2) := by
  refine ⟨rfl, rfl, rfl, ?_, by simp⟩
  have h1 : meanExcludingInf (analyze_h6 c4sample).sequential_ratios =
      PyFloat.fin ((0 + 4 / 2) / ((1 : ℕ) : ℚ)) := rfl
  rw [h1]
  simp only [PyFloat.fin.injEq]
  push_cast
  norm_num

end AnalyzeHypotheses

namespace AnalyzeHypotheses

/-- Two patterns of which neither is a prefix of the other cannot both be
prefixes of the same name. -/
theorem nameStarts_excl {p q : String}
    (hpq : List.isPrefixOf p.data q.data = false ∧ List.isPrefixOf q.data p.data = false)
    {s : String} (h : nameStarts s p = true) : nameStarts s q = false := by
  cases hq : nameStarts s q with
  | false => rfl
  | true =>
    exfalso
    have hp : p.data <+: s.data := List.isPrefixOf_iff_prefix.mp h
    have hq' : q.data <+: s.data := List.isPrefixOf_iff_prefix.mp hq
    rcases List.prefix_or_prefix_of_prefix hp hq' with h1 | h1
    · rw [List.isPrefixOf_iff_prefix.mpr h1] at hpq
      exact Bool.noConfusion hpq.1
    · rw [List.isPrefixOf_iff_prefix.mpr h1] at hpq
      exact Bool.noConfusion hpq.2

theorem group_by_name_start_append (l1 l2 : List BenchmarkResult) (pat : String) :
    group_by_name_start (l1 ++ l2) pat =
      group_by_name_start l1 pat ++ group_by_name_start l2 pat := by
  simp [group_by_name_start, List.filter_append]

/-- C9: hypothesis evaluation is total, and a record of the `NoCompact`
sequential group with no counterpart in the `WithCompact` group matching on
every key is silently dropped: removing it leaves the entire `analyze_h6`
result (ratio lists, details, aggregates, verdict) unchanged, and no error
is possible (the embedding is a total function with no error channel, like
the Python loop, whose only partial operation — the division — is guarded). -/
theorem c9_unmatched_dropped (l1 l2 : List BenchmarkResult) (nc : BenchmarkResult)
    (hn : nameStarts nc.name "BM_H6_FieldAccess_NoCompact" = true)
    (hm : h6SeqMatch (group_by_name_start (l1 ++ nc :: l2) "BM_H6_FieldAccess_WithCompact") nc
      = none) :
    analyze_h6 (l1 ++ nc :: l2) = analyze_h6 (l1 ++ l2) := by
  have hw : nameStarts nc.name "BM_H6_FieldAccess_WithCompact" = false :=
    nameStarts_excl ⟨by decide, by decide⟩ hn
  have hr1 : nameStarts nc.name "BM_H6_RandomAccess_NoCompact" = false :=
    nameStarts_excl ⟨by decide, by decide⟩ hn
  have hr2 : nameStarts nc.name "BM_H6_RandomAccess_WithCompact" = false :=
    nameStarts_excl ⟨by decide, by decide⟩ hn
  have hgW : group_by_name_start (l1 ++ nc :: l2) "BM_H6_FieldAccess_WithCompact" =
      group_by_name_start (l1 ++ l2) "BM_H6_FieldAccess_WithCompact" := by
    simp [group_by_name_start, List.filter_append, hw]
  have hgR1 : group_by_name_start (l1 ++ nc :: l2) "BM_H6_RandomAccess_NoCompact" =
      group_by_name_start (l1 ++ l2) "BM_H6_RandomAccess_NoCompact" := by
    simp [group_by_name_start, List.filter_append, hr1]
  have hgR2 : group_by_name_start (l1 ++ nc :: l2) "BM_H6_RandomAccess_WithCompact" =
      group_by_name_start (l1 ++ l2) "BM_H6_RandomAccess_WithCompact" := by
    simp [group_by_name_start, List.filter_append, hr2]
  have hgN : group_by_name_start (l1 ++ nc :: l2) "BM_H6_FieldAccess_NoCompact" =
      group_by_name_start l1 "BM_H6_FieldAccess_NoCompact" ++
        nc :: group_by_name_start l2 "BM_H6_FieldAccess_NoCompact" := by
    simp [group_by_name_start, List.filter_append, hn]
  have hmW : h6SeqMatch (group_by_name_start (l1 ++ l2) "BM_H6_FieldAccess_WithCompact") nc
      = none := by
    rw [← hgW]
    exact hm
  have hmW' : h6SeqMatch
      (group_by_name_start l1 "BM_H6_FieldAccess_WithCompact" ++
        group_by_name_start l2 "BM_H6_FieldAccess_WithCompact") nc = none := by
    rw [← group_by_name_start_append]
    exact hmW
  have hseq : h6SeqPairs (l1 ++ nc :: l2) = h6SeqPairs (l1 ++ l2) := by
    unfold h6SeqPairs
    rw [hgW, hgN]
    simp only [group_by_name_start_append]
    simp [List.filterMap_append, List.filterMap_cons, hmW']
  have hrand : h6RandPairs (l1 ++ nc :: l2) = h6RandPairs (l1 ++ l2) := by
    unfold h6RandPairs
    rw [hgR1, hgR2]
  have hsr : h6SeqRatios (l1 ++ nc :: l2) = h6SeqRatios (l1 ++ l2) := by
    unfold h6SeqRatios
    rw [hseq]
  have hrr : h6RandRatios (l1 ++ nc :: l2) = h6RandRatios (l1 ++ l2) := by
    unfold h6RandRatios
    rw [hrand]
  have hdet : h6Details (l1 ++ nc :: l2) = h6Details (l1 ++ l2) := by
    unfold h6Details
    rw [hseq, hrand]
  unfold analyze_h6
  rw [hsr, hrr, hdet]

/-- Witness for C9: a lone unmatched `NoCompact` record contributes nothing
— evaluating it alone equals evaluating the empty record list. -/
theorem c9_unmatched_dropped_witness :
    analyze_h6 [c9lone] = analyze_h6 [] :=
  c9_unmatched_dropped [] [] c9lone (by decide) (by decide)

end AnalyzeHypotheses
